/-
Verification development for the City-Memories soundscape repository.

Shallow embedding of:
  * the PCM codec (`decodeAudioData` in the shared audio utility),
  * the live playback engine (`LiveMusicHelper`): chunk scheduling,
    playback state machine, stop/pause/play effects, prompt updates,
  * the plan renderer (`LongMusicGenerator`): the stanza loop,
    PCM accumulation and WAV container construction.

Numbers: times, gains and normalized samples are modelled as `ℚ`;
byte values as `Nat` (with explicit `< 256` bounds where needed).
-/
import Mathlib

namespace CityMemories

/-! ## Data model (src/types.ts) -/

/-- Playback state of the live engine (`PlaybackState` in types.ts). -/
inductive PlaybackState
  | stopped
  | playing
  | loading
  | paused
  deriving DecidableEq, Repr

/-! ## PCM codec (`decodeAudioData` in the shared audio utility)

The source computes `frameCount = data.length / 2 / numChannels`,
creates a buffer with that many frames (the output buffer truncates a
trailing partial frame), views the bytes as a little-endian
`Int16Array`, and de-interleaves: channel `c`, frame `i` is
`dataInt16[i * numChannels + c] / 32768.0`. -/

/-- The little-endian signed 16-bit value at index `k` of the byte
array, exactly as an `Int16Array` view reads bytes `2*k` and `2*k+1`. -/
def int16At (data : List Nat) (k : Nat) : Int :=
  let v : Nat := data.getD (2 * k) 0 + 256 * data.getD (2 * k + 1) 0
  if v < 32768 then (v : Int) else (v : Int) - 65536

/-- The audio buffer produced by `ctx.createBuffer` and filled by
`decodeAudioData`: per-channel normalized float data. -/
structure AudioBufferModel where
  sampleRate : Nat
  numberOfChannels : Nat
  frameCount : Nat
  channels : List (List ℚ)
  deriving DecidableEq, Repr

/-- Model of `decodeAudioData(data, ctx, sampleRate, numChannels)`:
frame count is `data.length / 2 / numChannels` (integer division: the
created buffer truncates a trailing partial frame), samples are
de-interleaved little-endian int16 normalized by 32768. -/
def decodeAudioData (data : List Nat) (sampleRate numChannels : Nat) :
    AudioBufferModel :=
  let frameCount := data.length / 2 / numChannels
  { sampleRate := sampleRate
    numberOfChannels := numChannels
    frameCount := frameCount
    channels :=
      (List.range numChannels).map fun channel =>
        (List.range frameCount).map fun i =>
          (int16At data (i * numChannels + channel) : ℚ) / 32768 }

/-- Duration in seconds of a decoded buffer (`audioBuffer.duration`). -/
def AudioBufferModel.duration (b : AudioBufferModel) : ℚ :=
  (b.frameCount : ℚ) / (b.sampleRate : ℚ)

/-! ## Live Playback Engine (`LiveMusicHelper`)

The engine keeps a scheduling cursor `nextStartTime` (`0` is the
"unset" sentinel), a fixed look-ahead horizon `bufferTime = 2`
seconds, and the playback state.  `processAudioChunks` is translated
from the source: it returns early when paused/stopped, decodes only
`audioChunks[0]`, anchors the cursor at `currentTime + bufferTime` on
a fresh start (arming a one-shot timer that later flips the state to
`playing`), drops the chunk and resets to `loading` on underrun, and
otherwise schedules the chunk at the cursor and advances the cursor
by the chunk's duration. -/

namespace LiveMusicHelper

/-- The look-ahead buffer horizon in seconds (`bufferTime = 2`). -/
def bufferTime : ℚ := 2

/-- The scheduling-relevant part of the helper's state. -/
structure SchedState where
  nextStartTime : ℚ
  playbackState : PlaybackState
  deriving DecidableEq, Repr

/-- Events dispatched by the helper. -/
inductive HelperEvent
  | playbackStateChanged (s : PlaybackState)
  | errorEvent (msg : String)
  | filteredPromptEvent (text : String)
  deriving DecidableEq, Repr

/-- Observable outcome of one `processAudioChunks` invocation:
the successor state, how many chunks were decoded, the `source.start`
times issued, whether the buffer-horizon timer was armed, and the
events dispatched synchronously. -/
structure ChunkOutcome where
  state : SchedState
  decodedCount : Nat
  scheduledStarts : List ℚ
  timerArmed : Bool
  events : List HelperEvent
  deriving DecidableEq, Repr

/-- Model of `LiveMusicHelper.processAudioChunks(audioChunks)` at output
clock `currentTime`.  A batch is its list of decoded chunk durations;
the source reads only `audioChunks[0]`, so only the head is decoded. -/
def processAudioChunks (s : SchedState) (currentTime : ℚ)
    (durations : List ℚ) : ChunkOutcome :=
  if s.playbackState = .paused ∨ s.playbackState = .stopped then
    { state := s, decodedCount := 0, scheduledStarts := [],
      timerArmed := false, events := [] }
  else
    let duration := durations.headD 0
    let fresh : Bool := s.nextStartTime = 0
    let nst := if s.nextStartTime = 0 then currentTime + bufferTime
               else s.nextStartTime
    if nst < currentTime then
      { state := { nextStartTime := 0, playbackState := .loading },
        decodedCount := 1, scheduledStarts := [], timerArmed := fresh,
        events := [.playbackStateChanged .loading] }
    else
      { state := { nextStartTime := nst + duration,
                   playbackState := s.playbackState },
        decodedCount := 1, scheduledStarts := [nst], timerArmed := fresh,
        events := [] }

/-- Runs a sequence of single-chunk batches `(currentTime, duration)`
through the scheduler, collecting every issued start time. -/
def runChunks (s : SchedState) (chunks : List (ℚ × ℚ)) :
    SchedState × List ℚ :=
  match chunks with
  | [] => (s, [])
  | (ct, d) :: rest =>
    let r := processAudioChunks s ct [d]
    let res := runChunks r.state rest
    (res.1, r.scheduledStarts ++ res.2)

/-- Full helper state for the playback state machine, including the
session handle, the pending connection promise, and the number of
buffer-horizon timers armed but not yet fired. -/
structure HelperState where
  playbackState : PlaybackState
  nextStartTime : ℚ
  session : Bool
  sessionPromise : Bool
  pendingTimers : Nat
  deriving DecidableEq, Repr

/-- `play()` (happy path): sets state `loading` first, then obtains a
session (creating the pending connection promise) and starts it. -/
def play (s : HelperState) : HelperState :=
  { s with playbackState := .loading, session := true,
           sessionPromise := true }

/-- `pause()`: issues pause to the session, sets state `paused`, ramps
gain 1→0, resets the cursor, and replaces the output node. -/
def pause (s : HelperState) : HelperState :=
  { s with playbackState := .paused, nextStartTime := 0 }

/-- Observable outcome of `stop()`: the successor state plus whether a
stop command was issued to the session and the gain automation
written to the output node (`setValueAtTime` then
`linearRampToValueAtTime`). -/
structure StopOutcome where
  state : HelperState
  sessionStopIssued : Bool
  gainSetValue : ℚ
  gainRampTarget : ℚ
  deriving DecidableEq, Repr

/-- Model of `LiveMusicHelper.stop()`: issues stop to the session when
present, sets state `stopped`, writes gain `setValueAtTime(0)` then
`linearRampToValueAtTime(1)` (the source ramps 0 → 1), resets the
cursor, and discards the session handle and the pending connection
promise.  Pending timers are NOT cancelled. -/
def stop (s : HelperState) : StopOutcome :=
  { state := { s with
      playbackState := .stopped
      nextStartTime := 0
      session := false
      sessionPromise := false }
    sessionStopIssued := s.session
    gainSetValue := 0
    gainRampTarget := 1 }

/-- The session `onerror`/`onclose` callbacks: both invoke `stop()`
and then dispatch an `error` event. -/
def onSessionError (s : HelperState) (msg : String) :
    StopOutcome × List HelperEvent :=
  (stop s, [.errorEvent msg])

/-- Commands driving the helper's state machine, including the firing
of a previously armed buffer-horizon timer. -/
inductive HelperCmd
  | playCmd
  | pauseCmd
  | stopCmd
  | playPauseCmd
  | chunkBatch (currentTime : ℚ) (durations : List ℚ)
  | timerFire
  deriving DecidableEq, Repr

/-- One step of the helper's event loop.  `timerFire` is the body of
the `setTimeout` armed in `processAudioChunks`: it unconditionally
sets the playback state to `playing` (the source performs no session
or state check in the callback). -/
def stepHelper (s : HelperState) : HelperCmd → HelperState
  | .playCmd => play s
  | .pauseCmd => pause s
  | .stopCmd => (stop s).state
  | .playPauseCmd =>
    match s.playbackState with
    | .playing => pause s
    | .paused => play s
    | .stopped => play s
    | .loading => (stop s).state
  | .chunkBatch ct ds =>
    let r := processAudioChunks ⟨s.nextStartTime, s.playbackState⟩ ct ds
    { s with playbackState := r.state.playbackState,
             nextStartTime := r.state.nextStartTime,
             pendingTimers := s.pendingTimers +
               (if r.timerArmed then 1 else 0) }
  | .timerFire =>
    if s.pendingTimers = 0 then s
    else { s with playbackState := .playing,
                  pendingTimers := s.pendingTimers - 1 }

/-- Runs a command sequence from a given state. -/
def runHelper (s : HelperState) (cmds : List HelperCmd) : HelperState :=
  cmds.foldl stepHelper s

/-- The helper's initial state: stopped, cursor unset, no session, no
pending connection, no pending timers. -/
def initialHelperState : HelperState :=
  { playbackState := .stopped, nextStartTime := 0, session := false,
    sessionPromise := false, pendingTimers := 0 }

/-! ### Prompt handling (`activePrompts`, `setWeightedPrompts`) -/

/-- A prompt as held by the helper (UI metadata omitted: the engine
reads only `text` and `weight`). -/
structure Prompt where
  promptId : String
  text : String
  weight : ℚ
  deriving DecidableEq, Repr

/-- `activePrompts`: prompts whose text is not filtered and whose
weight is nonzero. -/
def activePrompts (prompts : List Prompt) (filteredPrompts : List String) :
    List Prompt :=
  prompts.filter fun p => !filteredPrompts.contains p.text && p.weight != 0

/-- Observable outcome of one (unthrottled) `setWeightedPrompts` body. -/
structure PromptsOutcome where
  prompts : List Prompt
  events : List HelperEvent
  pauseInvoked : Bool
  playbackState : PlaybackState
  nextStartTime : ℚ
  sentToSession : Option (List (String × ℚ))
  deriving DecidableEq, Repr

/-- Model of the body of `LiveMusicHelper.setWeightedPrompts` (the
function wrapped by the 200 ms throttle), on the happy send path:
stores the snapshot; if the active prompt set is empty, dispatches an
`error` event and pauses without sending; if no session exists yet,
stores silently; otherwise sends the wire-form list. -/
def setWeightedPrompts (sessionPresent : Bool)
    (filteredPrompts : List String) (st : SchedState)
    (prompts : List Prompt) : PromptsOutcome :=
  if activePrompts prompts filteredPrompts = [] then
    { prompts := prompts
      events := [.errorEvent "There needs to be one active prompt to play."]
      pauseInvoked := true
      playbackState := .paused
      nextStartTime := 0
      sentToSession := none }
  else if !sessionPresent then
    { prompts := prompts, events := [], pauseInvoked := false,
      playbackState := st.playbackState,
      nextStartTime := st.nextStartTime, sentToSession := none }
  else
    { prompts := prompts, events := [], pauseInvoked := false,
      playbackState := st.playbackState,
      nextStartTime := st.nextStartTime,
      sentToSession :=
        some ((activePrompts prompts filteredPrompts).map fun p =>
          (p.text, p.weight)) }

end LiveMusicHelper

/-! ## Plan Renderer (`LongMusicGenerator`)

Offline mode: drives the same session protocol over an ordered plan of
stanzas, accumulates every decoded PCM byte sequence in arrival order,
and wraps the concatenation in a 44-byte WAV header. -/

namespace LongMusicGenerator

/-- A weighted prompt in wire form (`WeightedPrompt` in types.ts). -/
structure WeightedPrompt where
  text : String
  weight : ℚ
  deriving DecidableEq, Repr

/-- Per-stanza generation config (`MusicStanzaConfig` in types.ts);
every field is optional. -/
structure MusicStanzaConfig where
  bpm : Option ℚ
  mute_bass : Option Bool
  mute_drums : Option Bool
  scale : Option String
  temperature : Option ℚ
  deriving DecidableEq, Repr

/-- One section of a music plan (`MusicStanza` in types.ts). -/
structure MusicStanza where
  prompts : List WeightedPrompt
  seconds : ℚ
  config : Option MusicStanzaConfig
  deriving DecidableEq, Repr

/-- A music plan (`MusicPlan` in types.ts). -/
structure MusicPlan where
  title : String
  stanzas : List MusicStanza
  deriving DecidableEq, Repr

/-- The wire-form generation config pushed to the session
(`setMusicGenerationConfig` argument). -/
structure GenConfig where
  bpm : Option ℚ
  temperature : Option ℚ
  scale : Option String
  muteBass : Option Bool
  muteDrums : Option Bool
  deriving DecidableEq, Repr

/-- The config translation in `generateMusic`: each field is copied
when defined (`!== undefined`), except `scale`, which the source
guards with a truthiness test (`if (stanza.config.scale)`), so an
empty-string scale is also dropped. -/
def translateConfig (c : MusicStanzaConfig) : GenConfig :=
  { bpm := c.bpm
    temperature := c.temperature
    scale := match c.scale with
      | some sc => if sc = "" then none else some sc
      | none => none
    muteBass := c.mute_bass
    muteDrums := c.mute_drums }

/-- `stanza.config?.bpm` — the bpm seen by the boundary comparison. -/
def stanzaBpm (st : MusicStanza) : Option ℚ :=
  st.config.bind fun c => c.bpm

/-- `stanza.config?.scale` — the scale seen by the boundary
comparison (raw, with no truthiness filtering). -/
def stanzaScale (st : MusicStanza) : Option String :=
  st.config.bind fun c => c.scale

/-- The boundary test in `generateMusic`:
`nextStanza.config?.bpm !== stanza.config?.bpm ||
 nextStanza.config?.scale !== stanza.config?.scale`. -/
def resetNeeded (cur next : MusicStanza) : Bool :=
  stanzaBpm next != stanzaBpm cur || stanzaScale next != stanzaScale cur

/-- The externally visible actions `generateMusic` performs, in
order: progress events, session commands, and wall-clock waits
(milliseconds). -/
inductive RenderAction
  | progress (current total : Nat) (stanza : MusicStanza)
  | setPrompts (prompts : List WeightedPrompt)
  | setConfig (config : GenConfig)
  | playAction
  | pauseAction
  | stopAction
  | sleepAction (ms : ℚ)
  deriving DecidableEq, Repr

/-- The stanza loop of `generateMusic`, translated statement by
statement: for stanza `i` (0-based) of `total`, emit progress
`{current := i + 1, total}`, push the stanza's prompts, push its
translated config when present, issue play only when `i = 0`, sleep
`seconds * 1000` ms, and when a next stanza exists and the boundary
test fires, issue pause, sleep 100 ms, play. -/
def stanzasTrace (total : Nat) : Nat → List MusicStanza → List RenderAction
  | _, [] => []
  | i, st :: rest =>
    ([.progress (i + 1) total st, .setPrompts st.prompts]
      ++ (match st.config with
          | some c => [.setConfig (translateConfig c)]
          | none => [])
      ++ (if i = 0 then [.playAction] else [])
      ++ [.sleepAction (st.seconds * 1000)]
      ++ (match rest.head? with
          | some nxt =>
            if resetNeeded st nxt then
              [.pauseAction, .sleepAction 100, .playAction]
            else []
          | none => []))
    ++ stanzasTrace total (i + 1) rest

/-- The full action trace of `generateMusic` on the happy path: the
stanza loop, then stop, then the 500 ms drain wait. -/
def generateMusicTrace (plan : MusicPlan) : List RenderAction :=
  stanzasTrace plan.stanzas.length 0 plan.stanzas
    ++ [.stopAction, .sleepAction 500]

/-- Generator state relevant to the busy-rejection check. -/
structure GenState where
  isGenerating : Bool
  audioData : List (List Nat)
  sessionActive : Bool
  deriving DecidableEq, Repr

/-- The entry of `generateMusic`: if a generation is already in
progress it throws the busy error before any assignment; otherwise it
marks the generator busy and clears the accumulated audio. -/
def generateMusicEntry (s : GenState) : GenState × Option String :=
  if s.isGenerating then (s, some "既に音楽生成が進行中です")
  else ({ s with isGenerating := true, audioData := [] }, none)

/-- Model of `LongMusicGenerator.processAudioChunks`: appends the
decoded bytes of every chunk that carries data (a chunk's `data`
field is checked for truthiness) to the accumulator, in order. -/
def processAudioChunks (audioData : List (List Nat))
    (chunks : List (Option (List Nat))) : List (List Nat) :=
  audioData ++ chunks.filterMap id

/-- The `combined` array built in `generateMusic`: the concatenation
of all accumulated byte sequences in arrival order. -/
def combineAudioData (audioData : List (List Nat)) : List Nat :=
  audioData.flatten

/-- ASCII codes of a header tag string (`writeString`). -/
def asciiCodes (s : String) : List Nat :=
  s.data.map Char.toNat

/-- Little-endian bytes of `DataView.setUint16(_, v, true)`. -/
def u16le (v : Nat) : List Nat :=
  [v % 256, v / 256 % 256]

/-- Little-endian bytes of `DataView.setUint32(_, v, true)`. -/
def u32le (v : Nat) : List Nat :=
  [v % 256, v / 256 % 256, v / 65536 % 256, v / 16777216 % 256]

/-- The unsigned integer denoted by little-endian bytes. -/
def leNat (bs : List Nat) : Nat :=
  bs.foldr (fun b acc => b + 256 * acc) 0

/-- Model of `createWavFile(pcmData, sampleRate, numChannels)`: the
44-byte RIFF/WAVE header written field by field in source order,
followed by the PCM bytes. -/
def createWavFile (pcmData : List Nat) (sampleRate numChannels : Nat) :
    List Nat :=
  asciiCodes "RIFF"
    ++ u32le (36 + pcmData.length)
    ++ asciiCodes "WAVE"
    ++ asciiCodes "fmt "
    ++ u32le 16
    ++ u16le 1
    ++ u16le numChannels
    ++ u32le sampleRate
    ++ u32le (sampleRate * numChannels * 2)
    ++ u16le (numChannels * 2)
    ++ u16le 16
    ++ asciiCodes "data"
    ++ u32le pcmData.length
    ++ pcmData

/-- The file `generateMusic` returns, as a function of the chunk
batches received during generation (each batch is a list of chunks,
each chunk an optional decoded byte sequence): the accumulated bytes
are combined and wrapped at 48 kHz stereo. -/
def generateMusicFile (batches : List (List (Option (List Nat)))) :
    List Nat :=
  createWavFile (combineAudioData (batches.foldl processAudioChunks []))
    48000 2

/-- Claim-side description (position-indexed, generalized over a
starting index `i` for the loop induction): the actions emitted for
the stanza at position `k` of `l` when the loop counter there reads
`i + k`. -/
def stanzaActionsAux (N i : Nat) (l : List MusicStanza) (k : Nat) :
    List RenderAction :=
  let st := l.getD k ⟨[], 0, none⟩
  [RenderAction.progress (i + k + 1) N st,
   RenderAction.setPrompts st.prompts]
  ++ (match st.config with
      | some c => [RenderAction.setConfig (translateConfig c)]
      | none => [])
  ++ (if i + k = 0 then [RenderAction.playAction] else [])
  ++ [RenderAction.sleepAction (st.seconds * 1000)]
  ++ (match l[k + 1]? with
      | some nxt =>
        if resetNeeded st nxt then
          [RenderAction.pauseAction, RenderAction.sleepAction 100,
           RenderAction.playAction]
        else []
      | none => [])

/-- Claim-side description of the `k`-th stanza's actions (0-based
`k`): progress `{current := k + 1, total := N}` then the stanza's
prompts, its translated config when present, play only for the first
stanza, the stanza-long wait, and the pause → 100 ms wait → play
context-reset cycle exactly when a next stanza exists and differs
from this one in bpm or scale. -/
def stanzaActionsAt (N : Nat) (l : List MusicStanza) (k : Nat) :
    List RenderAction :=
  stanzaActionsAux N 0 l k

end LongMusicGenerator

/-! ## Theorems -/


lemma getD_lt_256 (data : List Nat) (hb : ∀ b ∈ data, b < 256) (j : Nat) :
    data.getD j 0 < 256 := by
  induction data generalizing j with
  | nil => simp [List.getD]
  | cons a l ih =>
    cases j with
    | zero => simpa [List.getD] using hb a (by simp)
    | succ m =>
      have h : (a :: l).getD (m + 1) 0 = l.getD m 0 := by simp [List.getD]
      rw [h]
      exact ih (fun b hm => hb b (by simp [hm])) m

lemma int16At_bounds (data : List Nat) (hb : ∀ b ∈ data, b < 256) (k : Nat) :
    -32768 ≤ int16At data k ∧ int16At data k < 32768 := by
  have h1 := getD_lt_256 data hb (2 * k)
  have h2 := getD_lt_256 data hb (2 * k + 1)
  unfold int16At
  dsimp only
  split <;> omega

lemma sample_range (x : Int) (h1 : -32768 ≤ x) (h2 : x < 32768) :
    -1 ≤ (x : ℚ) / 32768 ∧ (x : ℚ) / 32768 < 1 := by
  have hx1 : (-32768 : ℚ) ≤ (x : ℚ) := by exact_mod_cast h1
  have hx2 : (x : ℚ) < 32768 := by exact_mod_cast h2
  constructor
  · rw [le_div_iff₀ (by norm_num : (0 : ℚ) < 32768)]
    linarith
  · rw [div_lt_one (by norm_num : (0 : ℚ) < 32768)]
    exact hx2

/-- C3: for every byte input of even PCM byte length, `decodeAudioData`
with sample rate `r` and channel count `n` produces per-channel buffers
whose frame count equals `⌊len / 2 / n⌋` (a trailing partial frame is
truncated), every output value lies in `[-1, 1)`, and sample `i` of
channel `c` is the little-endian signed 16-bit value at interleaved
position `i * n + c` divided by 32768. -/
theorem decodeAudioData_frames_and_range (data : List Nat) (r n : Nat)
    (heven : data.length % 2 = 0) (hb : ∀ b ∈ data, b < 256) :
    (decodeAudioData data r n).channels.length = n ∧
    (decodeAudioData data r n).frameCount = data.length / 2 / n ∧
    (∀ ch ∈ (decodeAudioData data r n).channels,
      ch.length = data.length / 2 / n) ∧
    (∀ ch ∈ (decodeAudioData data r n).channels, ∀ v ∈ ch,
      -1 ≤ v ∧ v < 1) ∧
    (∀ c, c < n → ∀ i, i < data.length / 2 / n →
      ((decodeAudioData data r n).channels.getD c []).getD i 0 =
        (int16At data (i * n + c) : ℚ) / 32768) := by
  refine ⟨by simp [decodeAudioData], rfl, ?_, ?_, ?_⟩
  · intro ch hch
    simp only [decodeAudioData, List.mem_map, List.mem_range] at hch
    obtain ⟨c, hc, rfl⟩ := hch
    simp
  · intro ch hch v hv
    simp only [decodeAudioData, List.mem_map, List.mem_range] at hch
    obtain ⟨c, hc, rfl⟩ := hch
    simp only [List.mem_map, List.mem_range] at hv
    obtain ⟨i, hi, rfl⟩ := hv
    exact sample_range _ (int16At_bounds data hb _).1 (int16At_bounds data hb _).2
  · intro c hc i hi
    simp [decodeAudioData, List.getD_eq_getElem?_getD, List.getElem?_map,
      List.getElem?_range, hc, hi]

/-- C3 witness: the theorem applied to a concrete 4-byte stereo input. -/
theorem decodeAudioData_frames_and_range_witness :
    ([1, 128, 255, 127] : List Nat).length % 2 = 0 ∧
    (∀ b ∈ ([1, 128, 255, 127] : List Nat), b < 256) ∧
    (∀ c, c < 2 → ∀ i, i < ([1, 128, 255, 127] : List Nat).length / 2 / 2 →
      ((decodeAudioData [1, 128, 255, 127] 48000 2).channels.getD c []).getD i 0 =
        (int16At [1, 128, 255, 127] (i * 2 + c) : ℚ) / 32768) :=
  ⟨by decide, by decide,
    (decodeAudioData_frames_and_range [1, 128, 255, 127] 48000 2
      (by decide) (by decide)).2.2.2.2⟩

namespace LiveMusicHelper

lemma runChunks_no_underrun (chunks : List (ℚ × ℚ)) (ps : PlaybackState) :
    ∀ T : ℚ, ps ≠ .paused → ps ≠ .stopped → 0 < T →
    (∀ c ∈ chunks, 0 ≤ c.2) →
    (∀ k : Fin chunks.length,
      (chunks.get k).1 ≤ T + ((chunks.map Prod.snd).take k.1).sum) →
    runChunks ⟨T, ps⟩ chunks =
      (⟨T + (chunks.map Prod.snd).sum, ps⟩,
       (List.range chunks.length).map fun k =>
         T + ((chunks.map Prod.snd).take k).sum) := by
  induction chunks with
  | nil =>
    intro T hp hs hT hd harr
    simp [runChunks]
  | cons c rest ih =>
    intro T hp hs hT hd harr
    obtain ⟨ct, d⟩ := c
    have hct : ct ≤ T := by simpa using harr ⟨0, by simp⟩
    have hd0 : (0 : ℚ) ≤ d := hd (ct, d) (by simp)
    have hTne : T ≠ 0 := ne_of_gt hT
    have hguard : ¬(ps = PlaybackState.paused ∨ ps = PlaybackState.stopped) := by
      simp [hp, hs]
    have hstep : processAudioChunks ⟨T, ps⟩ ct [d] =
        { state := ⟨T + d, ps⟩, decodedCount := 1,
          scheduledStarts := [T], timerArmed := false, events := [] } := by
      simp [processAudioChunks, hguard, hTne, not_lt.mpr hct]
    have harr2 : ∀ k : Fin rest.length,
        (rest.get k).1 ≤ (T + d) + ((rest.map Prod.snd).take k.1).sum := by
      intro k
      have h := harr ⟨k.1 + 1, by simpa using Nat.succ_lt_succ k.2⟩
      simp only [List.get_cons_succ, List.map_cons, List.take_succ_cons,
        List.sum_cons] at h
      calc (rest.get k).1
          ≤ T + (d + ((rest.map Prod.snd).take k.1).sum) := by
            simpa using h
        _ = (T + d) + ((rest.map Prod.snd).take k.1).sum := by ring
    have hres := ih (T + d) hp hs (by linarith)
      (fun c hc => hd c (by simp [hc])) harr2
    simp only [runChunks, hstep, hres]
    refine Prod.ext ?_ ?_
    · show SchedState.mk (T + d + (rest.map Prod.snd).sum) ps =
        SchedState.mk (T + ((((ct, d) :: rest).map Prod.snd)).sum) ps
      simp only [List.map_cons, List.sum_cons, SchedState.mk.injEq,
        and_true]
      ring
    · show [T] ++ (List.range rest.length).map
          (fun k => (T + d) + ((rest.map Prod.snd).take k).sum) =
        (List.range (((ct, d) :: rest).length)).map
          (fun k => T + ((((ct, d) :: rest).map Prod.snd).take k).sum)
      rw [List.length_cons, List.range_succ_eq_map, List.map_cons,
        List.map_map]
      simp only [List.map_cons, List.take_zero, List.sum_nil, add_zero,
        List.singleton_append]
      congr 1
      apply List.map_congr_left
      intro k hk
      simp only [Function.comp, List.take_succ_cons, List.sum_cons]
      ring

/-- C1: for every decoded chunk, a fresh start anchors the cursor at
`currentTime + bufferTime` and schedules there; an elapsed cursor
drops the chunk, resets the cursor to unset and moves to `loading`;
otherwise the chunk starts exactly at the cursor, which advances by
the chunk's duration — hence for a run of chunks without underrun the
k-th chunk starts at `t0 + bufferTime + sum(durations[0..k-1])`, with
zero gap and zero overlap. -/
theorem processAudioChunks_gapless :
    (∀ (s : SchedState) (ct : ℚ) (ds : List ℚ),
      ¬(s.playbackState = .paused ∨ s.playbackState = .stopped) →
      s.nextStartTime = 0 →
      (processAudioChunks s ct ds).state.nextStartTime
          = ct + bufferTime + ds.headD 0 ∧
      (processAudioChunks s ct ds).scheduledStarts = [ct + bufferTime] ∧
      (processAudioChunks s ct ds).timerArmed = true) ∧
    (∀ (s : SchedState) (ct : ℚ) (ds : List ℚ),
      ¬(s.playbackState = .paused ∨ s.playbackState = .stopped) →
      s.nextStartTime ≠ 0 → s.nextStartTime < ct →
      (processAudioChunks s ct ds).scheduledStarts = [] ∧
      (processAudioChunks s ct ds).state =
        { nextStartTime := 0, playbackState := .loading }) ∧
    (∀ (s : SchedState) (ct : ℚ) (ds : List ℚ),
      ¬(s.playbackState = .paused ∨ s.playbackState = .stopped) →
      s.nextStartTime ≠ 0 → ¬(s.nextStartTime < ct) →
      (processAudioChunks s ct ds).scheduledStarts = [s.nextStartTime] ∧
      (processAudioChunks s ct ds).state.nextStartTime
          = s.nextStartTime + ds.headD 0 ∧
      (processAudioChunks s ct ds).state.playbackState
          = s.playbackState) ∧
    (∀ (ps : PlaybackState) (chunks : List (ℚ × ℚ)),
      ps ≠ .paused → ps ≠ .stopped →
      (∀ c ∈ chunks, 0 ≤ c.1 ∧ 0 ≤ c.2) →
      (∀ k : Fin chunks.length,
        (chunks.get k).1 ≤ (chunks.headD (0, 0)).1 + bufferTime +
          ((chunks.map Prod.snd).take k.1).sum) →
      (runChunks ⟨0, ps⟩ chunks).2 =
        (List.range chunks.length).map fun k =>
          (chunks.headD (0, 0)).1 + bufferTime +
            ((chunks.map Prod.snd).take k).sum) := by
  have hfresh : ∀ (s : SchedState) (ct : ℚ) (ds : List ℚ),
      ¬(s.playbackState = .paused ∨ s.playbackState = .stopped) →
      s.nextStartTime = 0 →
      processAudioChunks s ct ds =
        { state := { nextStartTime := ct + bufferTime + ds.headD 0,
                     playbackState := s.playbackState },
          decodedCount := 1, scheduledStarts := [ct + bufferTime],
          timerArmed := true, events := [] } := by
    intro s ct ds hg h0
    have hnu : ¬(ct + bufferTime < ct) := by
      simp only [bufferTime]; linarith
    simp [processAudioChunks, hg, h0, hnu, add_assoc]
  refine ⟨?_, ?_, ?_, ?_⟩
  · intro s ct ds hg h0
    rw [hfresh s ct ds hg h0]
    exact ⟨rfl, rfl, rfl⟩
  · intro s ct ds hg h0 hu
    simp [processAudioChunks, hg, h0, hu]
  · intro s ct ds hg h0 hu
    simp [processAudioChunks, hg, h0, hu]
  · intro ps chunks hp hs hc harr
    match chunks with
    | [] => simp [runChunks]
    | (t0, d0) :: rest =>
      have hg : ¬(ps = PlaybackState.paused ∨ ps = PlaybackState.stopped) := by
        simp [hp, hs]
      have ht0 : (0 : ℚ) ≤ t0 := (hc (t0, d0) (by simp)).1
      have hd0 : (0 : ℚ) ≤ d0 := (hc (t0, d0) (by simp)).2
      have hstep := hfresh ⟨0, ps⟩ t0 [d0] hg rfl
      have harr2 : ∀ k : Fin rest.length,
          (rest.get k).1 ≤ (t0 + bufferTime + d0) +
            ((rest.map Prod.snd).take k.1).sum := by
        intro k
        have h := harr ⟨k.1 + 1, by simpa using Nat.succ_lt_succ k.2⟩
        simp only [List.get_cons_succ, List.map_cons, List.take_succ_cons,
          List.sum_cons, List.headD_cons] at h
        calc (rest.get k).1
            ≤ t0 + bufferTime + (d0 + ((rest.map Prod.snd).take k.1).sum) := by
              simpa using h
          _ = (t0 + bufferTime + d0) + ((rest.map Prod.snd).take k.1).sum := by
              ring
      have hres := runChunks_no_underrun rest ps (t0 + bufferTime + d0)
        hp hs (by simp only [bufferTime]; linarith)
        (fun c hcm => (hc c (by simp [hcm])).2) harr2
      simp only [runChunks, hstep, List.headD_cons, hres]
      show [t0 + bufferTime] ++ (List.range rest.length).map
          (fun k => (t0 + bufferTime + d0) +
            ((rest.map Prod.snd).take k).sum) =
        (List.range ((rest.length) + 1)).map
          (fun k => (((t0, d0) :: rest).headD (0, 0)).1 + bufferTime +
            ((((t0, d0) :: rest).map Prod.snd).take k).sum)
      rw [List.range_succ_eq_map, List.map_cons, List.map_map]
      simp only [List.headD_cons, List.map_cons, List.take_zero,
        List.sum_nil, add_zero, List.singleton_append]
      congr 1
      apply List.map_congr_left
      intro k hk
      simp only [Function.comp, List.take_succ_cons, List.sum_cons]
      ring

/-- C1 witness: two chunks of duration 1 arriving at clock 0 and 1
are scheduled back-to-back at 2 and 3. -/
theorem processAudioChunks_gapless_witness :
    (runChunks ⟨0, .loading⟩ [(0, 1), (1, 1)]).2 = [2, 3] := by
  have h4 := processAudioChunks_gapless.2.2.2 .loading [(0, 1), (1, 1)]
    (by simp) (by simp)
    (by intro c hc; fin_cases hc <;> norm_num)
    (by intro k; fin_cases k <;> simp [bufferTime])
  rw [h4]
  norm_num [List.range_succ, bufferTime]

/-- C10: while the playback state is `paused` or `stopped`, an incoming
audio-chunk batch is discarded immediately: nothing is decoded or
scheduled, cursor and state are unchanged, no timer is armed, and no
event is raised. -/
theorem processAudioChunks_paused_stopped_noop (s : SchedState) (ct : ℚ)
    (ds : List ℚ)
    (h : s.playbackState = .paused ∨ s.playbackState = .stopped) :
    processAudioChunks s ct ds =
      { state := s, decodedCount := 0, scheduledStarts := [],
        timerArmed := false, events := [] } := by
  simp [processAudioChunks, h]

/-- C10 witness: the theorem applied in the `paused` state. -/
theorem processAudioChunks_paused_stopped_noop_witness :
    ((⟨5, .paused⟩ : SchedState).playbackState = .paused ∨
      (⟨5, .paused⟩ : SchedState).playbackState = .stopped) ∧
    processAudioChunks ⟨5, .paused⟩ 7 [1, 1] =
      { state := ⟨5, .paused⟩, decodedCount := 0, scheduledStarts := [],
        timerArmed := false, events := [] } :=
  ⟨Or.inl rfl,
    processAudioChunks_paused_stopped_noop ⟨5, .paused⟩ 7 [1, 1]
      (Or.inl rfl)⟩

/-- C5 counterexample: a batch of two chunks (durations 1 and 1)
arriving while playing with cursor 5 at clock 0: only one chunk is
decoded and only one source is scheduled, and the cursor advances by
the first chunk's duration only (to 6, not 7) — the second chunk is
neither decoded nor scheduled. -/
theorem processAudioChunks_second_chunk_dropped :
    (processAudioChunks ⟨5, .playing⟩ 0 [1, 1]).decodedCount = 1 ∧
    (processAudioChunks ⟨5, .playing⟩ 0 [1, 1]).decodedCount ≠ 2 ∧
    (processAudioChunks ⟨5, .playing⟩ 0 [1, 1]).scheduledStarts.length ≠ 2 ∧
    (processAudioChunks ⟨5, .playing⟩ 0 [1, 1]).state.nextStartTime = 6 := by
  have hg : ¬(PlaybackState.playing = PlaybackState.paused ∨
      PlaybackState.playing = PlaybackState.stopped) := by decide
  norm_num [processAudioChunks, hg]

/-- C5 (amended): while not paused or stopped, exactly one chunk — the
first of the batch — is decoded per batch, at most one source is
scheduled, and the outcome is entirely independent of the rest of the
batch. -/
theorem processAudioChunks_first_chunk_only (s : SchedState) (ct : ℚ)
    (ds : List ℚ)
    (h : ¬(s.playbackState = .paused ∨ s.playbackState = .stopped)) :
    (processAudioChunks s ct ds).decodedCount = 1 ∧
    (processAudioChunks s ct ds).scheduledStarts.length ≤ 1 ∧
    processAudioChunks s ct ds = processAudioChunks s ct [ds.headD 0] := by
  by_cases h0 : s.nextStartTime = 0
  · have hnu : ¬(ct + bufferTime < ct) := by
      simp only [bufferTime]; linarith
    simp [processAudioChunks, h, h0, hnu]
  · by_cases hu : s.nextStartTime < ct
    · simp [processAudioChunks, h, h0, hu]
    · simp [processAudioChunks, h, h0, hu]

/-- C5 witness: the amended theorem applied to a concrete state. -/
theorem processAudioChunks_first_chunk_only_witness :
    ¬((⟨5, .playing⟩ : SchedState).playbackState = .paused ∨
      (⟨5, .playing⟩ : SchedState).playbackState = .stopped) ∧
    ((processAudioChunks ⟨5, .playing⟩ 0 [1, 2]).decodedCount = 1 ∧
     (processAudioChunks ⟨5, .playing⟩ 0 [1, 2]).scheduledStarts.length ≤ 1 ∧
     processAudioChunks ⟨5, .playing⟩ 0 [1, 2] =
       processAudioChunks ⟨5, .playing⟩ 0 [([(1 : ℚ), 2]).headD 0]) :=
  ⟨by decide,
    processAudioChunks_first_chunk_only ⟨5, .playing⟩ 0 [1, 2] (by decide)⟩

/-- C2 (code bug): a buffer-horizon timer armed before `stop()` fires
afterward and unconditionally moves the playback state from `stopped`
to `playing` — the `setTimeout` callback performs no session or state
check.  Trace: `play(); first chunk at clock 0; stop(); timer fires`. -/
theorem stop_then_timerFire_resurrects_playing :
    (runHelper initialHelperState
      [.playCmd, .chunkBatch 0 [1], .stopCmd]).playbackState
        = .stopped ∧
    (runHelper initialHelperState
      [.playCmd, .chunkBatch 0 [1], .stopCmd]).pendingTimers = 1 ∧
    (runHelper initialHelperState
      [.playCmd, .chunkBatch 0 [1], .stopCmd, .timerFire]).playbackState
        = .playing ∧
    (runHelper initialHelperState
      [.playCmd, .chunkBatch 0 [1], .stopCmd, .timerFire]).session
        = false := by
  have hg : ¬(PlaybackState.loading = PlaybackState.paused ∨
      PlaybackState.loading = PlaybackState.stopped) := by decide
  norm_num [runHelper, stepHelper, play, pause, stop, processAudioChunks,
    initialHelperState, bufferTime, hg]

/-- C4 counterexample: `stop()` from a playing state with a live
session writes gain value 0 and then ramps the gain to 1 — toward
full volume, not toward silence. -/
theorem stop_ramps_to_full_volume :
    (stop ⟨.playing, 5, true, true, 0⟩).gainSetValue = 0 ∧
    (stop ⟨.playing, 5, true, true, 0⟩).gainRampTarget = 1 ∧
    (stop ⟨.playing, 5, true, true, 0⟩).gainRampTarget ≠ 0 := by
  decide

/-- C4 (amended): from every state, `stop()` (and the fatal session
error/close handlers, which invoke it) ends with playback state
`stopped`, issues stop to the session exactly when one exists, sets
the gain to the deterministic value 0 and then ramps it toward full
volume (1), resets the scheduling cursor to unset, and discards both
the session handle and the pending connection promise. -/
theorem stop_effects (s : HelperState) (msg : String) :
    (stop s).state.playbackState = .stopped ∧
    (stop s).sessionStopIssued = s.session ∧
    (stop s).gainSetValue = 0 ∧
    (stop s).gainRampTarget = 1 ∧
    (stop s).state.nextStartTime = 0 ∧
    (stop s).state.session = false ∧
    (stop s).state.sessionPromise = false ∧
    (onSessionError s msg).1 = stop s ∧
    (onSessionError s msg).2 = [.errorEvent msg] := by
  simp [stop, onSessionError]

/-- C6: `setWeightedPrompts` with a snapshot whose active prompt set is
empty raises an `error` event, forces a pause leaving state `paused`,
and sends no prompt list to the session. -/
theorem setWeightedPrompts_empty_active (sessionPresent : Bool)
    (filtered : List String) (st : SchedState) (prompts : List Prompt)
    (h : activePrompts prompts filtered = []) :
    (setWeightedPrompts sessionPresent filtered st prompts).events =
      [.errorEvent "There needs to be one active prompt to play."] ∧
    (setWeightedPrompts sessionPresent filtered st prompts).pauseInvoked
      = true ∧
    (setWeightedPrompts sessionPresent filtered st prompts).playbackState
      = .paused ∧
    (setWeightedPrompts sessionPresent filtered st prompts).sentToSession
      = none := by
  simp [setWeightedPrompts, h]

/-- C6 witness: a snapshot with a single zero-weight prompt. -/
theorem setWeightedPrompts_empty_active_witness :
    activePrompts [⟨"p1", "calm", 0⟩] [] = [] ∧
    ((setWeightedPrompts true [] ⟨0, .playing⟩ [⟨"p1", "calm", 0⟩]).events =
      [.errorEvent "There needs to be one active prompt to play."] ∧
     (setWeightedPrompts true [] ⟨0, .playing⟩
        [⟨"p1", "calm", 0⟩]).pauseInvoked = true ∧
     (setWeightedPrompts true [] ⟨0, .playing⟩
        [⟨"p1", "calm", 0⟩]).playbackState = .paused ∧
     (setWeightedPrompts true [] ⟨0, .playing⟩
        [⟨"p1", "calm", 0⟩]).sentToSession = none) :=
  ⟨by decide,
    setWeightedPrompts_empty_active true [] ⟨0, .playing⟩
      [⟨"p1", "calm", 0⟩] (by decide)⟩

end LiveMusicHelper

namespace LongMusicGenerator

lemma getElem?_zero_eq_head? {α : Type} (l : List α) : l[0]? = l.head? := by
  cases l <;> simp

lemma stanzasTrace_indexed (N : Nat) (l : List MusicStanza) :
    ∀ i : Nat, stanzasTrace N i l =
      ((List.range l.length).map (stanzaActionsAux N i l)).flatten := by
  induction l with
  | nil => intro i; simp [stanzasTrace]
  | cons st rest ih =>
    intro i
    rw [stanzasTrace, ih (i + 1), List.length_cons,
      List.range_succ_eq_map, List.map_cons, List.map_map,
      List.flatten_cons]
    congr 1
    · show _ = stanzaActionsAux N i (st :: rest) 0
      simp [stanzaActionsAux, getElem?_zero_eq_head?]
    · congr 1
      apply List.map_congr_left
      intro k hk
      show stanzaActionsAux N (i + 1) rest k =
        stanzaActionsAux N i (st :: rest) (k + 1)
      have harith : i + (k + 1) = i + 1 + k := by omega
      simp [stanzaActionsAux, harith]

/-- C7: the plan renderer processes stanzas strictly in order: its
full action trace is exactly the concatenation, over stanza positions
`k`, of the claim-described per-stanza actions (progress
`{current := k + 1, total := N}`, prompts, translated config when
present, play only for the first stanza, the stanza-long wait, and
the pause → brief wait → play reset cycle exactly at boundaries where
the next stanza differs in bpm or scale), followed by stop and the
drain wait. -/
theorem generateMusic_stanza_order (plan : MusicPlan) :
    generateMusicTrace plan =
      ((List.range plan.stanzas.length).map
        (stanzaActionsAt plan.stanzas.length plan.stanzas)).flatten
      ++ [RenderAction.stopAction, RenderAction.sleepAction 500] := by
  unfold generateMusicTrace stanzaActionsAt
  rw [stanzasTrace_indexed plan.stanzas.length plan.stanzas 0]

/-- C9: a `generateMusic` call while a generation is in progress is
rejected with the busy error before any mutation: the busy flag, the
accumulated audio data, and the session are all unchanged. -/
theorem generateMusic_busy_rejected (s : GenState)
    (h : s.isGenerating = true) :
    generateMusicEntry s = (s, some "既に音楽生成が進行中です") ∧
    (generateMusicEntry s).1.audioData = s.audioData ∧
    (generateMusicEntry s).1.sessionActive = s.sessionActive ∧
    (generateMusicEntry s).1.isGenerating = true := by
  simp [generateMusicEntry, h]

/-- C9 witness: a busy generator with accumulated audio. -/
theorem generateMusic_busy_rejected_witness :
    (⟨true, [[1, 2]], true⟩ : GenState).isGenerating = true ∧
    generateMusicEntry ⟨true, [[1, 2]], true⟩ =
      (⟨true, [[1, 2]], true⟩, some "既に音楽生成が進行中です") :=
  ⟨rfl, (generateMusic_busy_rejected ⟨true, [[1, 2]], true⟩ rfl).1⟩

lemma asciiCodes_RIFF : asciiCodes "RIFF" = [82, 73, 70, 70] := rfl

lemma asciiCodes_WAVE : asciiCodes "WAVE" = [87, 65, 86, 69] := rfl

lemma asciiCodes_fmt : asciiCodes "fmt " = [102, 109, 116, 32] := rfl

lemma asciiCodes_data : asciiCodes "data" = [100, 97, 116, 97] := rfl

lemma createWavFile_bytes (pcm : List Nat) (r n : Nat) :
    createWavFile pcm r n =
      82 :: 73 :: 70 :: 70 ::
      (36 + pcm.length) % 256 :: (36 + pcm.length) / 256 % 256 ::
      (36 + pcm.length) / 65536 % 256 ::
      (36 + pcm.length) / 16777216 % 256 ::
      87 :: 65 :: 86 :: 69 :: 102 :: 109 :: 116 :: 32 ::
      16 :: 0 :: 0 :: 0 :: 1 :: 0 ::
      n % 256 :: n / 256 % 256 ::
      r % 256 :: r / 256 % 256 :: r / 65536 % 256 :: r / 16777216 % 256 ::
      (r * n * 2) % 256 :: (r * n * 2) / 256 % 256 ::
      (r * n * 2) / 65536 % 256 :: (r * n * 2) / 16777216 % 256 ::
      (n * 2) % 256 :: (n * 2) / 256 % 256 ::
      16 :: 0 ::
      100 :: 97 :: 116 :: 97 ::
      pcm.length % 256 :: pcm.length / 256 % 256 ::
      pcm.length / 65536 % 256 :: pcm.length / 16777216 % 256 ::
      pcm := by
  simp [createWavFile, asciiCodes_RIFF, asciiCodes_WAVE, asciiCodes_fmt,
    asciiCodes_data, u16le, u32le]

lemma foldl_processAudioChunks (batches : List (List (Option (List Nat)))) :
    ∀ acc : List (List Nat),
      batches.foldl processAudioChunks acc =
        acc ++ (batches.map fun b => b.filterMap id).flatten := by
  induction batches with
  | nil => intro acc; simp
  | cons b rest ih =>
    intro acc
    simp [processAudioChunks, ih (acc ++ b.filterMap id)]

/-- C8: the produced file is a fixed 44-byte header — PCM format
tag 1, the given channel count, the given sample rate, byte rate
`rate × channels × 2`, block align `channels × 2`, 16 bits per
sample, and a data-length field equal to the number of PCM bytes —
followed by the concatenation, in arrival order, of all decoded PCM
byte sequences received during generation. -/
theorem createWavFile_header (pcm : List Nat) (r n : Nat)
    (hlen : pcm.length < 4294967296) :
    (createWavFile pcm r n).length = 44 + pcm.length ∧
    (createWavFile pcm r n).drop 44 = pcm ∧
    ((createWavFile pcm r n).drop 20).take 2 = u16le 1 ∧
    ((createWavFile pcm r n).drop 22).take 2 = u16le n ∧
    ((createWavFile pcm r n).drop 24).take 4 = u32le r ∧
    ((createWavFile pcm r n).drop 28).take 4 = u32le (r * n * 2) ∧
    ((createWavFile pcm r n).drop 32).take 2 = u16le (n * 2) ∧
    ((createWavFile pcm r n).drop 34).take 2 = u16le 16 ∧
    leNat (((createWavFile pcm r n).drop 40).take 4) = pcm.length ∧
    (∀ batches : List (List (Option (List Nat))),
      generateMusicFile batches =
        createWavFile
          ((batches.map fun b => b.filterMap id).flatten.flatten)
          48000 2) := by
  rw [createWavFile_bytes pcm r n]
  refine ⟨?_, rfl, rfl, rfl, rfl, rfl, rfl, rfl, ?_, ?_⟩
  · simp
    omega
  · show leNat [pcm.length % 256, pcm.length / 256 % 256,
      pcm.length / 65536 % 256, pcm.length / 16777216 % 256] = pcm.length
    simp [leNat]
    omega
  · intro batches
    unfold generateMusicFile combineAudioData
    rw [foldl_processAudioChunks batches []]
    simp

/-- C8 witness: the header theorem applied to a concrete 4-byte
stereo payload. -/
theorem createWavFile_header_witness :
    ([1, 2, 3, 4] : List Nat).length < 4294967296 ∧
    (createWavFile [1, 2, 3, 4] 48000 2).length = 44 + 4 ∧
    (createWavFile [1, 2, 3, 4] 48000 2).drop 44 = [1, 2, 3, 4] :=
  ⟨by norm_num,
    (createWavFile_header [1, 2, 3, 4] 48000 2 (by norm_num)).1,
    (createWavFile_header [1, 2, 3, 4] 48000 2 (by norm_num)).2.1⟩

end LongMusicGenerator

end CityMemories
